import Mathlib

/-!
Verification of the sepsisX alert-lifecycle and prediction-feedback core.

The data model is embedded from the TypeScript type declarations
(`src/unnamed/part_007`).  UI-level logic (AlertCard status buttons,
PredictionDetailModal risk factors, VitalsChart) is embedded from the
corresponding components.  The backend services (Alert Engine, Prediction
Store, Feedback Ledger, Patient Summary Aggregator) are reachable from this
repository only through their HTTP client wrappers (`src/unnamed/part_005`,
`src/unnamed/part_006`, `patient.service.ts`), so their behaviour is modelled
from the specification, as flagged on each definition.

Numbers that are IEEE doubles in the source are modelled as rationals.
-/

namespace SepsisX

/-- Status of an alert, from the `AlertStatus` union in `src/unnamed/part_007`. -/
inductive AlertStatus where
  | pending
  | acknowledged
  | action_taken
  | dismissed
deriving DecidableEq, Repr

/-- Patient record (the fields the core logic reads), from `src/unnamed/part_007`. -/
structure Patient where
  id : Nat
  first_name : String
  last_name : String
deriving DecidableEq, Repr

/-- Clinical data point, from the `ClinicalData` interface in `src/unnamed/part_007`
(restricted to the vitals `VitalsChart` reads); timestamps are modelled as the
numeric value `new Date(t).getTime()` yields. -/
structure ClinicalData where
  id : Nat
  patient_id : Nat
  timestamp : Nat
  heart_rate : Option ℚ
  respiratory_rate : Option ℚ
  temperature : Option ℚ
  systolic_bp : Option ℚ
  oxygen_saturation : Option ℚ
deriving DecidableEq, Repr

/-- SHAP explanation, from the `ShapExplanation` interface in `src/unnamed/part_007`. -/
structure ShapExplanation where
  features : List String
  shap_values : List ℚ
  base_value : ℚ
deriving DecidableEq, Repr

/-- Sepsis prediction, from the `SepsisPrediction` interface in
`src/unnamed/part_007`; the `features_used` open map is modelled as an
association list. -/
structure Prediction where
  id : Nat
  patient_id : Nat
  probability : ℚ
  is_sepsis_risk : Bool
  features_used : List (String × ℚ)
  model_version : String
  timestamp : Nat
  explanation : Option ShapExplanation
deriving DecidableEq, Repr

/-- Alert record, from the `Alert` interface in `src/unnamed/part_007`. -/
structure Alert where
  id : Nat
  patient_id : Nat
  prediction_id : Nat
  alert_type : String
  severity : Nat
  status : AlertStatus
  message : String
  created_at : Nat
  acknowledged_at : Option Nat
  acknowledged_by : Option String
deriving DecidableEq, Repr

/-- Feedback type, from the `FeedbackType` union in `src/unnamed/part_007`. -/
inductive FeedbackType where
  | correct
  | false_positive
  | false_negative
  | unsure
deriving DecidableEq, Repr

/-- Feedback record, from the `Feedback` interface in `src/unnamed/part_007`. -/
structure Feedback where
  id : Nat
  prediction_id : Nat
  user_id : Nat
  feedback_type : FeedbackType
  comments : Option String
  created_at : Nat
deriving DecidableEq, Repr

/-- Whether a status counts as "open", from the spec glossary: an open alert is
one whose status is `pending` or `acknowledged`. -/
def isOpenStatus : AlertStatus → Bool
  | .pending => true
  | .acknowledged => true
  | .action_taken => false
  | .dismissed => false

/-- Modelled from the spec: the alert status state machine of §4.2
(`pending → acknowledged → action_taken`, `pending → dismissed`, everything
else disallowed).  The backend Alert Engine that enforces it is not under
`src/`; only its HTTP client (`updateAlertStatus` in `src/unnamed/part_005`)
is. -/
def validTransition : AlertStatus → AlertStatus → Bool
  | .pending, .acknowledged => true
  | .pending, .dismissed => true
  | .acknowledged, .action_taken => true
  | _, _ => false

/-- Status-change actions the `AlertCard` component offers for an alert in a
given status, from `src/unnamed/part_000` lines 100-131: a `pending` alert
shows the Acknowledge and Dismiss buttons, an `acknowledged` alert shows only
Mark Actioned, terminal alerts show no status button. -/
def offeredActions : AlertStatus → List AlertStatus
  | .pending => [.acknowledged, .dismissed]
  | .acknowledged => [.action_taken]
  | .action_taken => []
  | .dismissed => []

/-- Severity badge colour, from `getSeverityColor` in `src/unnamed/part_000`. -/
def getSeverityColor (severity : Nat) : String :=
  match severity with
  | 5 => "red"
  | 4 => "orange"
  | 3 => "yellow"
  | 2 => "blue"
  | _ => "green"

/-- Modelled from the spec: the severity banding of §4.2
(`probability ≥ 0.8 → 5, ≥ 0.6 → 4, ≥ 0.4 → 3, ≥ 0.2 → 2, else 1`).  The
backend policy function is not under `src/`; the only severity logic visible
in the source is the colour map `getSeverityColor`.  The cut points are
written with `mkRat` (note `mkRat 4 5 = 0.8` and so on). -/
def deriveSeverity (p : ℚ) : Nat :=
  if mkRat 4 5 ≤ p then 5
  else if mkRat 3 5 ≤ p then 4
  else if mkRat 2 5 ≤ p then 3
  else if mkRat 1 5 ≤ p then 2
  else 1

/-- Error kinds of the spec's §7 taxonomy that the modelled core raises. -/
inductive ServiceError where
  | notFound
  | invalidTransition
  | validationError
deriving DecidableEq, Repr

/-- Modelled from the spec: the persistent state of the core (Prediction
Store, Alert Engine, Feedback Ledger and the patient / clinical-data
collaborators the Summary Aggregator reads).  The backend storage layer is
not under `src/`. -/
structure SystemState where
  patients : List Patient
  clinicalData : List ClinicalData
  predictions : List Prediction
  alerts : List Alert
  feedbacks : List Feedback
  nextAlertId : Nat
  nextFeedbackId : Nat
  nextPredictionId : Nat
  clock : Nat
deriving Repr

/-- The empty initial state. -/
def initState : SystemState :=
  { patients := [], clinicalData := [], predictions := [], alerts := [],
    feedbacks := [], nextAlertId := 0, nextFeedbackId := 0,
    nextPredictionId := 0, clock := 0 }

/-- Whether the patient currently has an open (pending or acknowledged) alert. -/
def hasOpenAlert (s : SystemState) (pid : Nat) : Bool :=
  s.alerts.any (fun a => a.patient_id == pid && isOpenStatus a.status)

/-- Modelled from the spec: `evaluate(prediction)` of §4.2.  Creates a new
`pending` alert only when the prediction is flagged as sepsis risk and the
patient has no open alert; of the two policies the spec allows for a
duplicate high-risk prediction, this model documents the "suppress
duplicate" choice.  The backend Alert Engine is not under `src/`. -/
def evaluate (s : SystemState) (pr : Prediction) : Option Alert × SystemState :=
  if pr.is_sepsis_risk && !(hasOpenAlert s pr.patient_id) then
    let a : Alert :=
      { id := s.nextAlertId, patient_id := pr.patient_id,
        prediction_id := pr.id, alert_type := "sepsis_risk",
        severity := deriveSeverity pr.probability, status := .pending,
        message := "High sepsis risk detected", created_at := s.clock,
        acknowledged_at := none, acknowledged_by := none }
    (some a, { s with alerts := s.alerts ++ [a],
                      nextAlertId := s.nextAlertId + 1,
                      clock := s.clock + 1 })
  else (none, s)

/-- Apply a granted status transition to an alert, recording the actor and
time on acknowledgement (spec §4.2). -/
def applyTransition (a : Alert) (st : AlertStatus) (actor : String) (clock : Nat) : Alert :=
  { a with status := st,
           acknowledged_at := if st = .acknowledged then some clock else a.acknowledged_at,
           acknowledged_by := if st = .acknowledged then some actor else a.acknowledged_by }

/-- Modelled from the spec: the list traversal behind `update_status`.  It
replaces the first alert carrying the requested id when the move is in the
state-machine table, fails with `notFound` when no alert carries the id and
with `invalidTransition` otherwise. -/
def updateAlerts : List Alert → Nat → AlertStatus → String → Nat →
    Except ServiceError (Alert × List Alert)
  | [], _, _, _, _ => .error .notFound
  | a :: rest, aid, st, actor, clock =>
    if a.id = aid then
      if validTransition a.status st then
        let a2 := applyTransition a st actor clock
        .ok (a2, a2 :: rest)
      else .error .invalidTransition
    else
      match updateAlerts rest aid st actor clock with
      | .ok (a2, rest2) => .ok (a2, a :: rest2)
      | .error e => .error e

/-- Modelled from the spec: `update_status(alert_id, new_status, actor)` of
§4.2 and §4.4; on failure the state is returned untouched.  The backend
Alert Engine is not under `src/`. -/
def update_status (s : SystemState) (aid : Nat) (st : AlertStatus) (actor : String) :
    Except ServiceError Alert × SystemState :=
  match updateAlerts s.alerts aid st actor s.clock with
  | .ok (a2, alerts2) =>
      (.ok a2, { s with alerts := alerts2, clock := s.clock + 1 })
  | .error e => (.error e, s)

/-- Look an alert up by id (first match, as `find?` does). -/
def findAlert (s : SystemState) (aid : Nat) : Option Alert :=
  s.alerts.find? (fun a => a.id == aid)

/-- Modelled from the spec: `submit(prediction_id, user_id, feedback_type,
comments?)` of §4.3 — fails with `notFound` when the prediction is absent,
otherwise appends a new immutable entry.  The backend Feedback Ledger is not
under `src/`. -/
def submit (s : SystemState) (pid uid : Nat) (ft : FeedbackType)
    (comments : Option String) : Except ServiceError Feedback × SystemState :=
  if s.predictions.any (fun q => q.id == pid) then
    let fb : Feedback :=
      { id := s.nextFeedbackId, prediction_id := pid, user_id := uid,
        feedback_type := ft, comments := comments, created_at := s.clock }
    (.ok fb, { s with feedbacks := s.feedbacks ++ [fb],
                      nextFeedbackId := s.nextFeedbackId + 1,
                      clock := s.clock + 1 })
  else (.error .notFound, s)

/-- Modelled from the spec: `list_for_prediction(prediction_id)` of §4.3,
oldest first (entries are stored in submission order). -/
def list_for_prediction (s : SystemState) (pid : Nat) : List Feedback :=
  s.feedbacks.filter (fun f => f.prediction_id == pid)

/-- Input to the Prediction Store's `record` (the record before the server
assigns the identifier and timestamp, spec §4.1). -/
structure PredictionInput where
  patient_id : Nat
  probability : ℚ
  is_sepsis_risk : Bool
  features_used : List (String × ℚ)
  model_version : String
  explanation : Option ShapExplanation
deriving DecidableEq, Repr

/-- Whether an optional explanation has index-aligned `features` and
`shap_values` arrays (spec §3 invariant). -/
def explanationAligned : Option ShapExplanation → Bool
  | none => true
  | some e => e.features.length == e.shap_values.length

/-- Modelled from the spec: the validation `record` performs (§4.1, §7) —
probability inside [0,1] and aligned explanation arrays. -/
def validPredictionInput (pin : PredictionInput) : Bool :=
  decide (0 ≤ pin.probability) && decide (pin.probability ≤ 1) &&
    explanationAligned pin.explanation

/-- Modelled from the spec: `record(prediction)` of §4.1 — rejects invalid
input with `validationError` before any mutation, otherwise stores the
record under a fresh identifier and server timestamp.  The backend
Prediction Store is not under `src/`. -/
def record (s : SystemState) (pin : PredictionInput) :
    Except ServiceError Prediction × SystemState :=
  if validPredictionInput pin then
    let pr : Prediction :=
      { id := s.nextPredictionId, patient_id := pin.patient_id,
        probability := pin.probability, is_sepsis_risk := pin.is_sepsis_risk,
        features_used := pin.features_used, model_version := pin.model_version,
        timestamp := s.clock, explanation := pin.explanation }
    (.ok pr, { s with predictions := s.predictions ++ [pr],
                      nextPredictionId := s.nextPredictionId + 1,
                      clock := s.clock + 1 })
  else (.error .validationError, s)

/-- The consolidated read view, from the `PatientSummary` interface in
`src/unnamed/part_007` (with `latest_vitals` as the most recent clinical-data
point, per spec §4.4). -/
structure PatientSummary where
  patient : Patient
  latest_vitals : Option ClinicalData
  recent_clinical_data : List ClinicalData
  sepsis_predictions : List Prediction
  latest_prediction : Option Prediction
  active_alerts : List Alert
  alert_count : Nat
deriving Repr

/-- Most recent clinical-data point by timestamp. -/
def latestClinical : List ClinicalData → Option ClinicalData
  | [] => none
  | c :: rest =>
    match latestClinical rest with
    | none => some c
    | some d => if d.timestamp ≤ c.timestamp then some c else some d

/-- Most recent prediction by timestamp. -/
def latestPrediction : List Prediction → Option Prediction
  | [] => none
  | p :: rest =>
    match latestPrediction rest with
    | none => some p
    | some q => if q.timestamp ≤ p.timestamp then some p else some q

/-- Modelled from the spec: `summarize(patient_id)` of §4.4 — fails with
`notFound` when the patient is absent, otherwise performs a read-only join
that tolerates every source being empty.  The backend Patient Summary
Aggregator is not under `src/`. -/
def summarize (s : SystemState) (pid : Nat) : Except ServiceError PatientSummary :=
  match s.patients.find? (fun p => p.id == pid) with
  | none => .error .notFound
  | some p =>
    let cds := s.clinicalData.filter (fun c => c.patient_id == pid)
    let preds := s.predictions.filter (fun q => q.patient_id == pid)
    let actives := s.alerts.filter (fun a => a.patient_id == pid && isOpenStatus a.status)
    .ok { patient := p,
          latest_vitals := latestClinical cds,
          recent_clinical_data := (cds.mergeSort (fun a b => decide (b.timestamp ≤ a.timestamp))).take 10,
          sepsis_predictions := preds,
          latest_prediction := latestPrediction preds,
          active_alerts := actives,
          alert_count := actives.length }

/-- Operations external callers can request of the core (spec §5: independent
request/response units); patient and clinical-data creation stand in for the
external CRUD collaborators. -/
inductive Op where
  | addPatient (p : Patient)
  | addClinical (c : ClinicalData)
  | recordPrediction (pin : PredictionInput)
  | evaluatePrediction (pr : Prediction)
  | updateStatus (aid : Nat) (st : AlertStatus) (actor : String)
  | submitFeedback (pid uid : Nat) (ft : FeedbackType) (comments : Option String)

/-- State reached after serving one request. -/
def stepState (s : SystemState) : Op → SystemState
  | .addPatient p => { s with patients := s.patients ++ [p] }
  | .addClinical c => { s with clinicalData := s.clinicalData ++ [c] }
  | .recordPrediction pin => (record s pin).2
  | .evaluatePrediction pr => (evaluate s pr).2
  | .updateStatus aid st actor => (update_status s aid st actor).2
  | .submitFeedback pid uid ft comments => (submit s pid uid ft comments).2

/-- State reached after serving a sequence of requests. -/
def runOps (s : SystemState) : List Op → SystemState
  | [] => s
  | op :: rest => runOps (stepState s op) rest

/-- A state is reachable when some request sequence produces it from the
empty initial state. -/
def Reachable (s : SystemState) : Prop :=
  ∃ ops : List Op, runOps initState ops = s

/-- Number of open (pending or acknowledged) alerts a patient has in an alert
list. -/
def countOpenAlerts : List Alert → Nat → Nat
  | [], _ => 0
  | a :: rest, pid =>
    (if a.patient_id = pid ∧ isOpenStatus a.status = true then 1 else 0) +
      countOpenAlerts rest pid

/-- Number of successful feedback submissions for a prediction along a
request sequence. -/
def submitCount : SystemState → List Op → Nat → Nat
  | _, [], _ => 0
  | s, op :: rest, pid =>
    (match op with
     | .submitFeedback p u ft c =>
       if p = pid ∧ (submit s p u ft c).1.isOk = true then 1 else 0
     | _ => 0) + submitCount (stepState s op) rest pid

/-- Lookup in the `features_used` association map, embedding the JavaScript
object access `prediction.features_used[feature]` from
`src/frontend/src/components/predictions/predictiondetailmodel.tsx`. -/
def lookupFeature (used : List (String × ℚ)) (name : String) : Option ℚ :=
  (used.find? (fun kv => kv.1 == name)).map (fun kv => kv.2)

/-- One entry of the risk-factor list built by `getRiskFactors` in
`predictiondetailmodel.tsx`. -/
structure FeatureImpact where
  name : String
  impact : ℚ
  value : ℚ
deriving DecidableEq, Repr

/-- The indexed map of `getRiskFactors`
(`features.map((feature, index) => ...)` reading `shap_values[index]`),
embedded with an explicit running index; an out-of-bounds or missing access
(JavaScript `undefined`) is modelled by `Option` with `getD 0` closing the
total function off. -/
def combineImpacts (sv : List ℚ) (used : List (String × ℚ)) :
    Nat → List String → List FeatureImpact
  | _, [] => []
  | i, f :: rest =>
    { name := f, impact := (sv.get? i).getD 0,
      value := (lookupFeature used f).getD 0 } :: combineImpacts sv used (i + 1) rest

/-- Embeds `getRiskFactors` from `predictiondetailmodel.tsx` lines 77-93:
pair each feature with its SHAP value and the feature value used, then sort
by descending absolute impact (`(a, b) => Math.abs(b.impact) - Math.abs(a.impact)`). -/
def getRiskFactors (pr : Prediction) : List FeatureImpact :=
  match pr.explanation with
  | none => []
  | some e =>
    let featureImpacts := combineImpacts e.shap_values pr.features_used 0 e.features
    featureImpacts.mergeSort (fun a b => decide (|b.impact| ≤ |a.impact|))

/-- The entry `getRiskFactors` is specified to produce for an index-aligned
pair of a feature name and its SHAP value. -/
def pairImpact (used : List (String × ℚ)) (q : String × ℚ) : FeatureImpact :=
  { name := q.1, impact := q.2, value := (lookupFeature used q.1).getD 0 }

/-- The sorted copy `[...clinicalData].sort((a, b) => ta - tb)` that
`VitalsChart` (`src/unnamed/part_001` lines 16-21) builds its series from;
the spread makes the sort act on a copy, so in this pure embedding the input
list is simply left untouched. -/
def sortClinicalByTime (cds : List ClinicalData) : List ClinicalData :=
  cds.mergeSort (fun a b => decide (a.timestamp ≤ b.timestamp))

/-- The chart series `VitalsChart` assembles (`src/unnamed/part_001` lines
23-79): labels and one dataset per vital, all mapped off the sorted copy. -/
structure VitalsChartData where
  labels : List Nat
  heartRate : List (Option ℚ)
  respiratoryRate : List (Option ℚ)
  temperature : List (Option ℚ)
  systolicBP : List (Option ℚ)
  oxygenSaturation : List (Option ℚ)
deriving DecidableEq, Repr

/-- Builds the chart series from the sorted copy, as the `useMemo` body of
`VitalsChart` does. -/
def buildChartData (cds : List ClinicalData) : VitalsChartData :=
  let sortedData := sortClinicalByTime cds
  { labels := sortedData.map (fun c => c.timestamp),
    heartRate := sortedData.map (fun c => c.heart_rate),
    respiratoryRate := sortedData.map (fun c => c.respiratory_rate),
    temperature := sortedData.map (fun c => c.temperature),
    systolicBP := sortedData.map (fun c => c.systolic_bp),
    oxygenSaturation := sortedData.map (fun c => c.oxygen_saturation) }

/-- What `VitalsChart` renders: the no-data message or the line chart. -/
inductive VitalsChartView where
  | noDataMessage
  | lineChart (data : VitalsChartData)
deriving DecidableEq, Repr

/-- Embeds the render decision of `VitalsChart` (`src/unnamed/part_001` lines
138-151): an empty input renders the "No vital signs data available" box,
otherwise the line chart over the built series. -/
def VitalsChart (cds : List ClinicalData) : VitalsChartView :=
  if cds.length = 0 then .noDataMessage else .lineChart (buildChartData cds)

/-- The at-most-one-open-alert-per-patient invariant (spec §8, first bullet). -/
def OpenAlertInvariant (s : SystemState) : Prop :=
  ∀ pid, countOpenAlerts s.alerts pid ≤ 1

/-- Fixture: a patient. -/
def wPatient : Patient := { id := 1, first_name := "Ada", last_name := "Lovelace" }

/-- Fixture: a high-risk prediction (probability 0.85). -/
def wPredHigh : Prediction :=
  { id := 7, patient_id := 1, probability := mkRat 17 20, is_sepsis_risk := true,
    features_used := [], model_version := "1", timestamp := 0, explanation := none }

/-- Fixture: a second high-risk prediction (probability 0.9) for the same patient. -/
def wPredHigh2 : Prediction :=
  { id := 8, patient_id := 1, probability := mkRat 9 10, is_sepsis_risk := true,
    features_used := [], model_version := "1", timestamp := 1, explanation := none }

/-- Fixture: a low-risk prediction. -/
def wPredLow : Prediction :=
  { id := 9, patient_id := 1, probability := mkRat 1 10, is_sepsis_risk := false,
    features_used := [], model_version := "1", timestamp := 0, explanation := none }

/-- Fixture: the state after evaluating `wPredHigh` in the initial state; it
holds one pending alert for patient 1. -/
def wStateOpen : SystemState := (evaluate initState wPredHigh).2

/-- Fixture: the alert `evaluate` creates for `wPredHigh`. -/
def wAlert : Alert :=
  { id := 0, patient_id := 1, prediction_id := 7, alert_type := "sepsis_risk",
    severity := 5, status := .pending, message := "High sepsis risk detected",
    created_at := 0, acknowledged_at := none, acknowledged_by := none }

/-- Fixture: `wAlert` after acknowledgement by actor "dr" at clock 1. -/
def wAlertAck : Alert :=
  { wAlert with status := .acknowledged, acknowledged_at := some 1,
                acknowledged_by := some "dr" }

/-- Fixture: the state after dismissing the alert of `wStateOpen`. -/
def wStateDismissed : SystemState := (update_status wStateOpen 0 .dismissed "dr").2

/-- Fixture: `wAlert` after dismissal. -/
def wAlertDismissed : Alert := { wAlert with status := .dismissed }

/-- Fixture: a valid prediction input (probability 0.85). -/
def wPinHigh : PredictionInput :=
  { patient_id := 1, probability := mkRat 17 20, is_sepsis_risk := true,
    features_used := [], model_version := "1", explanation := none }

/-- Fixture: the state after recording `wPinHigh`; it stores prediction 0. -/
def wStatePred : SystemState := (record initState wPinHigh).2

/-- Fixture: the prediction `record` stores for `wPinHigh`. -/
def wPredRec : Prediction :=
  { id := 0, patient_id := 1, probability := mkRat 17 20, is_sepsis_risk := true,
    features_used := [], model_version := "1", timestamp := 0, explanation := none }

/-- Fixture: feedback submitted by user 100. -/
def wFbA : Feedback :=
  { id := 0, prediction_id := 0, user_id := 100, feedback_type := .correct,
    comments := none, created_at := 1 }

/-- Fixture: the state after user 100's submit. -/
def wStateFb1 : SystemState := (submit wStatePred 0 100 .correct none).2

/-- Fixture: feedback submitted by user 101. -/
def wFbB : Feedback :=
  { id := 1, prediction_id := 0, user_id := 101,
    feedback_type := .false_positive, comments := none, created_at := 2 }

/-- Fixture: the state after user 101's submit. -/
def wStateFb2 : SystemState := (submit wStateFb1 0 101 .false_positive none).2

/-- Fixture: a state holding only the patient record, with no clinical data,
predictions or alerts. -/
def wStateP : SystemState := { initState with patients := [wPatient] }

/-- Fixture: an invalid prediction input (probability 1.5, outside [0,1]). -/
def wPinBad : PredictionInput :=
  { patient_id := 1, probability := mkRat 3 2, is_sepsis_risk := true,
    features_used := [], model_version := "1", explanation := none }

/-- The alignment invariant of spec §3: every stored prediction's explanation
has index-aligned arrays. -/
def AlignedPredictions (s : SystemState) : Prop :=
  ∀ pr ∈ s.predictions, explanationAligned pr.explanation = true

/-- Fixture: a two-feature SHAP explanation. -/
def wExpl : ShapExplanation :=
  { features := ["hr", "temp"], shap_values := [mkRat 1 2, mkRat (-3) 4],
    base_value := 0 }

/-- Fixture: a prediction carrying `wExpl` and a feature map covering both
features. -/
def wPredExpl : Prediction :=
  { id := 9, patient_id := 1, probability := mkRat 17 20, is_sepsis_risk := true,
    features_used := [("hr", mkRat 95 1), ("temp", mkRat 383 10)],
    model_version := "1", timestamp := 0, explanation := some wExpl }

/-- The summary of a patient with no clinical data, predictions or alerts:
empty sequences and null fields in place of the missing sources (spec §4.4). -/
def emptyPatientSummary (p : Patient) : PatientSummary :=
  { patient := p, latest_vitals := none, recent_clinical_data := [],
    sepsis_predictions := [], latest_prediction := none, active_alerts := [],
    alert_count := 0 }

/-- Fixture: two clinical-data points out of timestamp order. -/
def wCd1 : ClinicalData :=
  { id := 1, patient_id := 1, timestamp := 9, heart_rate := some (mkRat 90 1),
    respiratory_rate := none, temperature := none, systolic_bp := none,
    oxygen_saturation := none }

/-- Fixture: the earlier of the two clinical-data points. -/
def wCd2 : ClinicalData :=
  { id := 2, patient_id := 1, timestamp := 4, heart_rate := some (mkRat 80 1),
    respiratory_rate := none, temperature := none, systolic_bp := none,
    oxygen_saturation := none }

theorem countOpenAlerts_append (l : List Alert) (a : Alert) (pid : Nat) :
    countOpenAlerts (l ++ [a]) pid =
      countOpenAlerts l pid +
        (if a.patient_id = pid ∧ isOpenStatus a.status = true then 1 else 0) := by
  induction l with
  | nil => simp [countOpenAlerts]
  | cons b rest ih =>
    simp only [List.cons_append, countOpenAlerts, List.append_eq]
    rw [ih]; omega

theorem countOpenAlerts_eq_zero (l : List Alert) (pid : Nat)
    (h : l.any (fun a => a.patient_id == pid && isOpenStatus a.status) = false) :
    countOpenAlerts l pid = 0 := by
  induction l with
  | nil => rfl
  | cons a rest ih =>
    simp only [List.any_cons, Bool.or_eq_false_iff, Bool.and_eq_false_iff] at h
    obtain ⟨h1, h2⟩ := h
    have hrest := ih h2
    simp only [countOpenAlerts, hrest]
    split
    · rename_i hc
      rcases h1 with h1 | h1
      · simp [hc.1] at h1
      · rw [hc.2] at h1; cases h1
    · rfl

theorem open_of_validTransition (u v : AlertStatus)
    (hv : validTransition u v = true) (ho : isOpenStatus v = true) :
    isOpenStatus u = true := by
  cases u <;> cases v <;> simp_all [validTransition, isOpenStatus]

theorem updateAlerts_countOpen_le (l : List Alert) (aid : Nat) (st : AlertStatus)
    (actor : String) (clock : Nat) (a2 : Alert) (l2 : List Alert) (pid : Nat)
    (h : updateAlerts l aid st actor clock = .ok (a2, l2)) :
    countOpenAlerts l2 pid ≤ countOpenAlerts l pid := by
  induction l generalizing l2 a2 with
  | nil => simp [updateAlerts] at h
  | cons a rest ih =>
    by_cases hid : a.id = aid
    · rw [updateAlerts, if_pos hid] at h
      by_cases hv : validTransition a.status st = true
      · rw [if_pos hv] at h
        simp only [Except.ok.injEq, Prod.mk.injEq] at h
        obtain ⟨-, hl2⟩ := h
        subst hl2
        simp only [countOpenAlerts, applyTransition]
        have hmono : (if a.patient_id = pid ∧ isOpenStatus st = true then 1 else 0) ≤
            (if a.patient_id = pid ∧ isOpenStatus a.status = true then 1 else 0) := by
          split
          · rename_i hc
            rw [if_pos ⟨hc.1, open_of_validTransition a.status st hv hc.2⟩]
          · omega
        omega
      · rw [if_neg hv] at h; cases h
    · rw [updateAlerts, if_neg hid] at h
      cases hrec : updateAlerts rest aid st actor clock with
      | ok p =>
        obtain ⟨a3, rest2⟩ := p
        rw [hrec] at h
        simp only [Except.ok.injEq, Prod.mk.injEq] at h
        obtain ⟨-, hl2⟩ := h
        subst hl2
        simp only [countOpenAlerts]
        have := ih a3 rest2 hrec
        omega
      | error e => rw [hrec] at h; cases h

theorem record_alerts (s : SystemState) (pin : PredictionInput) :
    (record s pin).2.alerts = s.alerts := by
  unfold record; split <;> rfl

theorem submit_alerts (s : SystemState) (pid uid : Nat) (ft : FeedbackType)
    (comments : Option String) :
    (submit s pid uid ft comments).2.alerts = s.alerts := by
  unfold submit; split <;> rfl

theorem stepState_preserves_openInv (s : SystemState) (op : Op)
    (h : OpenAlertInvariant s) : OpenAlertInvariant (stepState s op) := by
  intro pid
  cases op with
  | addPatient p => exact h pid
  | addClinical c => exact h pid
  | recordPrediction pin =>
    simp only [stepState, OpenAlertInvariant, record_alerts]; exact h pid
  | submitFeedback p u ft c =>
    simp only [stepState, OpenAlertInvariant, submit_alerts]; exact h pid
  | evaluatePrediction pr =>
    simp only [stepState]
    unfold evaluate
    split
    · rename_i hc
      simp only [Bool.and_eq_true, Bool.not_eq_true'] at hc
      simp only [countOpenAlerts_append]
      by_cases hp : pr.patient_id = pid
      · have h0 : countOpenAlerts s.alerts pid = 0 := by
          apply countOpenAlerts_eq_zero
          rw [← hp]
          exact hc.2
        simp only [h0]
        split <;> omega
      · rw [if_neg (by simp [hp])]
        have := h pid
        omega
    · exact h pid
  | updateStatus aid st actor =>
    simp only [stepState]
    unfold update_status
    cases hrec : updateAlerts s.alerts aid st actor s.clock with
    | ok p =>
      obtain ⟨a2, alerts2⟩ := p
      simp only
      have := updateAlerts_countOpen_le s.alerts aid st actor s.clock a2 alerts2 pid hrec
      have := h pid
      omega
    | error e => exact h pid

theorem runOps_preserves (P : SystemState → Prop)
    (hstep : ∀ s op, P s → P (stepState s op)) :
    ∀ (ops : List Op) (s : SystemState), P s → P (runOps s ops) := by
  intro ops
  induction ops with
  | nil => intro s h; exact h
  | cons op rest ih => intro s h; exact ih (stepState s op) (hstep s op h)

/-- C1: at every reachable state, each patient has at most one alert whose
status is pending or acknowledged, and a further prediction arriving while
the patient already has an open alert creates no alert and leaves the state
unchanged. -/
theorem at_most_one_open_alert_per_patient :
    (∀ s, Reachable s → ∀ pid, countOpenAlerts s.alerts pid ≤ 1) ∧
    (∀ s pr, hasOpenAlert s pr.patient_id = true → evaluate s pr = (none, s)) := by
  constructor
  · intro s hs pid
    obtain ⟨ops, hops⟩ := hs
    have hinit : OpenAlertInvariant initState := by
      intro p; simp [initState, countOpenAlerts]
    have hrun := runOps_preserves OpenAlertInvariant stepState_preserves_openInv
      ops initState hinit
    rw [hops] at hrun
    exact hrun pid
  · intro s pr h
    unfold evaluate
    rw [if_neg (by simp [h])]

/-- Witness for C1: the state holding the alert from the probability-0.85
prediction is reachable and satisfies the bound, and the probability-0.9
prediction for the same patient is suppressed there. -/
theorem at_most_one_open_alert_per_patient_witness :
    countOpenAlerts wStateOpen.alerts 1 ≤ 1 ∧
      evaluate wStateOpen wPredHigh2 = (none, wStateOpen) :=
  ⟨at_most_one_open_alert_per_patient.1 wStateOpen
      ⟨[Op.evaluatePrediction wPredHigh], rfl⟩ 1,
   at_most_one_open_alert_per_patient.2 wStateOpen wPredHigh2 (by decide)⟩

/-- C3: `evaluate` never creates an alert for a prediction that is not
flagged as sepsis risk, and any alert it does create starts in status
`pending`. -/
theorem evaluate_only_risk_and_pending :
    (∀ s pr, pr.is_sepsis_risk = false → (evaluate s pr).1 = none) ∧
    (∀ s pr a, (evaluate s pr).1 = some a → a.status = .pending) := by
  constructor
  · intro s pr h
    unfold evaluate
    rw [if_neg (by simp [h])]
  · intro s pr a h
    unfold evaluate at h
    by_cases hc : (pr.is_sepsis_risk && !(hasOpenAlert s pr.patient_id)) = true
    · rw [if_pos hc] at h
      simp only [Option.some.injEq] at h
      rw [← h]
    · rw [if_neg hc] at h
      cases h

/-- Witness for C3: the low-risk prediction yields no alert in the initial
state, and the alert created for the probability-0.85 prediction is pending. -/
theorem evaluate_only_risk_and_pending_witness :
    (evaluate initState wPredLow).1 = none ∧ wAlert.status = .pending :=
  ⟨evaluate_only_risk_and_pending.1 initState wPredLow rfl,
   evaluate_only_risk_and_pending.2 initState wPredHigh wAlert (by decide)⟩

/-- Bridge: the severity cut points written with `mkRat` equal the spec's
decimal literals. -/
theorem mkRat_cut_points :
    mkRat 4 5 = (0.8 : ℚ) ∧ mkRat 3 5 = (0.6 : ℚ) ∧
      mkRat 2 5 = (0.4 : ℚ) ∧ mkRat 1 5 = (0.2 : ℚ) := by
  refine ⟨?_, ?_, ?_, ?_⟩ <;> norm_num [mkRat, Rat.normalize]

/-- C5: severity is a deterministic function of probability with the fixed
bands `≥ 0.8 → 5, ≥ 0.6 → 4, ≥ 0.4 → 3, ≥ 0.2 → 2, else 1`; probability
0.85 yields severity 5. -/
theorem severity_bands :
    (∀ p : ℚ,
      (0.8 ≤ p → deriveSeverity p = 5) ∧
      (0.6 ≤ p ∧ p < 0.8 → deriveSeverity p = 4) ∧
      (0.4 ≤ p ∧ p < 0.6 → deriveSeverity p = 3) ∧
      (0.2 ≤ p ∧ p < 0.4 → deriveSeverity p = 2) ∧
      (p < 0.2 → deriveSeverity p = 1)) ∧
    deriveSeverity 0.85 = 5 ∧
    (∀ p q : ℚ, p = q → deriveSeverity p = deriveSeverity q) := by
  obtain ⟨e1, e2, e3, e4⟩ := mkRat_cut_points
  refine ⟨fun p => ?_, ?_, fun p q h => by rw [h]⟩
  · unfold deriveSeverity
    rw [e1, e2, e3, e4]
    refine ⟨fun h => if_pos h, fun h => ?_, fun h => ?_, fun h => ?_, fun h => ?_⟩
    · rw [if_neg (not_le.mpr h.2), if_pos h.1]
    · rw [if_neg (not_le.mpr (h.2.trans (by norm_num))),
        if_neg (not_le.mpr h.2), if_pos h.1]
    · rw [if_neg (not_le.mpr (h.2.trans (by norm_num))),
        if_neg (not_le.mpr (h.2.trans (by norm_num))),
        if_neg (not_le.mpr h.2), if_pos h.1]
    · rw [if_neg (not_le.mpr (h.trans (by norm_num))),
        if_neg (not_le.mpr (h.trans (by norm_num))),
        if_neg (not_le.mpr (h.trans (by norm_num))),
        if_neg (not_le.mpr h)]
  · unfold deriveSeverity
    rw [e1, if_pos (by norm_num)]

/-- Probability 0.85 clears the top cut point. -/
theorem prob85_in_top_band : (0.8 : ℚ) ≤ 0.85 := by norm_num

/-- Probability 0.1 falls below the bottom cut point. -/
theorem prob01_below_bands : (0.1 : ℚ) < 0.2 := by norm_num

/-- Witness for C5: the bands applied at probabilities 0.85 and 0.1, and
determinism applied at 0.85. -/
theorem severity_bands_witness :
    deriveSeverity (0.85 : ℚ) = 5 ∧ deriveSeverity (0.1 : ℚ) = 1 ∧
      deriveSeverity (0.85 : ℚ) = deriveSeverity (0.85 : ℚ) :=
  ⟨(severity_bands.1 0.85).1 prob85_in_top_band,
   (severity_bands.1 0.1).2.2.2.2 prob01_below_bands,
   severity_bands.2.2 0.85 0.85 rfl⟩

theorem updateAlerts_notFound (l : List Alert) (aid : Nat) (st : AlertStatus)
    (actor : String) (clock : Nat)
    (h : l.find? (fun a => a.id == aid) = none) :
    updateAlerts l aid st actor clock = .error .notFound := by
  induction l with
  | nil => rfl
  | cons a rest ih =>
    simp only [List.find?_cons] at h
    cases hb : (a.id == aid) with
    | true => rw [hb] at h; cases h
    | false =>
      rw [hb] at h
      have hid : ¬ a.id = aid := by simpa using hb
      rw [updateAlerts, if_neg hid, ih h]

theorem updateAlerts_invalid (l : List Alert) (aid : Nat) (st : AlertStatus)
    (actor : String) (clock : Nat) (a : Alert)
    (h1 : l.find? (fun b => b.id == aid) = some a)
    (h2 : validTransition a.status st = false) :
    updateAlerts l aid st actor clock = .error .invalidTransition := by
  induction l with
  | nil => cases h1
  | cons b rest ih =>
    simp only [List.find?_cons] at h1
    cases hb : (b.id == aid) with
    | true =>
      rw [hb] at h1
      simp only [Option.some.injEq] at h1
      have hid : b.id = aid := by simpa using hb
      rw [updateAlerts, if_pos hid, if_neg (by rw [h1]; simp [h2])]
    | false =>
      rw [hb] at h1
      have hid : ¬ b.id = aid := by simpa using hb
      rw [updateAlerts, if_neg hid, ih h1]

/-- C4: `update_status` fails with `notFound` when no alert carries the id,
fails with `invalidTransition` when the requested move is not in the
state-machine table — in particular always on a terminal-state alert — and
on any failure the state is returned unchanged. -/
theorem update_status_error_handling :
    (∀ s aid st actor, findAlert s aid = none →
        update_status s aid st actor = (.error .notFound, s)) ∧
    (∀ s aid st actor a, findAlert s aid = some a →
        validTransition a.status st = false →
        update_status s aid st actor = (.error .invalidTransition, s)) ∧
    (∀ (a : Alert) (st : AlertStatus),
        a.status = .action_taken ∨ a.status = .dismissed →
        validTransition a.status st = false) ∧
    (∀ s aid st actor e, (update_status s aid st actor).1 = .error e →
        (update_status s aid st actor).2 = s) := by
  refine ⟨?_, ?_, ?_, ?_⟩
  · intro s aid st actor h
    unfold update_status
    rw [updateAlerts_notFound s.alerts aid st actor s.clock h]
  · intro s aid st actor a h1 h2
    unfold update_status
    rw [updateAlerts_invalid s.alerts aid st actor s.clock a h1 h2]
  · intro a st h
    rcases h with h | h <;> rw [h] <;> cases st <;> rfl
  · intro s aid st actor e h
    unfold update_status at h ⊢
    cases hrec : updateAlerts s.alerts aid st actor s.clock with
    | ok p => rw [hrec] at h; cases h
    | error e2 => rfl

/-- Witness for C4: updating a missing alert fails with `notFound` leaving
the state unchanged, and acknowledging the dismissed alert of
`wStateDismissed` fails with `invalidTransition`. -/
theorem update_status_error_handling_witness :
    update_status initState 0 .acknowledged "dr" = (.error .notFound, initState) ∧
      update_status wStateDismissed 0 .acknowledged "dr" =
        (.error .invalidTransition, wStateDismissed) ∧
      validTransition wAlertDismissed.status .pending = false ∧
      (update_status initState 0 .acknowledged "dr").2 = initState :=
  ⟨update_status_error_handling.1 initState 0 .acknowledged "dr" rfl,
   update_status_error_handling.2.1 wStateDismissed 0 .acknowledged "dr"
     wAlertDismissed (by decide) (by decide),
   update_status_error_handling.2.2.1 wAlertDismissed .pending (Or.inr (by decide)),
   update_status_error_handling.2.2.2 initState 0 .acknowledged "dr"
     .notFound rfl⟩

theorem find?_append_some {α : Type} (l l2 : List α) (p : α → Bool) (a : α)
    (h : l.find? p = some a) : (l ++ l2).find? p = some a := by
  induction l with
  | nil => cases h
  | cons b rest ih =>
    simp only [List.find?_cons] at h
    cases hb : p b with
    | true => rw [hb] at h; simp only [List.cons_append, List.find?_cons, hb]; exact h
    | false =>
      rw [hb] at h
      simp only [List.cons_append, List.find?_cons, hb]
      exact ih h

theorem find?_cons_pos {α : Type} (p : α → Bool) (a : α) (l : List α)
    (h : p a = true) : (a :: l).find? p = some a := by
  rw [List.find?_cons, h]

theorem find?_cons_neg {α : Type} (p : α → Bool) (a : α) (l : List α)
    (h : p a = false) : (a :: l).find? p = l.find? p := by
  rw [List.find?_cons, h]

theorem applyTransition_id (a : Alert) (st : AlertStatus) (actor : String)
    (clock : Nat) : (applyTransition a st actor clock).id = a.id := rfl

theorem applyTransition_status (a : Alert) (st : AlertStatus) (actor : String)
    (clock : Nat) : (applyTransition a st actor clock).status = st := rfl

theorem updateAlerts_find? (l : List Alert) (aid : Nat) (st : AlertStatus)
    (actor : String) (clock : Nat) (b : Alert) (l2 : List Alert)
    (h : updateAlerts l aid st actor clock = .ok (b, l2)) (q : Nat) (a : Alert)
    (hf : l.find? (fun x => x.id == q) = some a) :
    l2.find? (fun x => x.id == q) = some a ∨
      (l2.find? (fun x => x.id == q) = some (applyTransition a st actor clock) ∧
        validTransition a.status st = true) := by
  induction l generalizing b l2 with
  | nil => cases h
  | cons c rest ih =>
    by_cases hid : c.id = aid
    · rw [updateAlerts, if_pos hid] at h
      by_cases hv : validTransition c.status st = true
      · rw [if_pos hv] at h
        simp only [Except.ok.injEq, Prod.mk.injEq] at h
        obtain ⟨-, hl2⟩ := h
        subst hl2
        cases hcq : (c.id == q) with
        | true =>
          have hfc : c = a := by
            rw [find?_cons_pos (fun x => x.id == q) c rest hcq] at hf
            exact Option.some.inj hf
          right
          subst hfc
          refine ⟨find?_cons_pos (fun x => x.id == q) _ rest ?_, hv⟩
          exact hcq
        | false =>
          left
          rw [find?_cons_neg (fun x => x.id == q) c rest hcq] at hf
          rw [find?_cons_neg (fun x => x.id == q)
            (applyTransition c st actor clock) rest hcq]
          exact hf
      · rw [if_neg hv] at h; cases h
    · rw [updateAlerts, if_neg hid] at h
      cases hrec : updateAlerts rest aid st actor clock with
      | ok p =>
        obtain ⟨b2, rest2⟩ := p
        rw [hrec] at h
        simp only [Except.ok.injEq, Prod.mk.injEq] at h
        obtain ⟨-, hl2⟩ := h
        subst hl2
        cases hcq : (c.id == q) with
        | true =>
          left
          rw [find?_cons_pos (fun x => x.id == q) c rest hcq] at hf
          rw [find?_cons_pos (fun x => x.id == q) c rest2 hcq]
          exact hf
        | false =>
          rw [find?_cons_neg (fun x => x.id == q) c rest hcq] at hf
          rw [find?_cons_neg (fun x => x.id == q) c rest2 hcq]
          exact ih b2 rest2 hrec hf
      | error e => rw [hrec] at h; cases h

theorem stepState_status_step (s : SystemState) (op : Op) (aid : Nat)
    (a a2 : Alert) (h1 : findAlert s aid = some a)
    (h2 : findAlert (stepState s op) aid = some a2) :
    a2.status = a.status ∨ validTransition a.status a2.status = true := by
  cases op with
  | addPatient p =>
    left
    have h2' : findAlert s aid = some a2 := h2
    rw [h1] at h2'
    cases h2'
    rfl
  | addClinical c =>
    left
    have h2' : findAlert s aid = some a2 := h2
    rw [h1] at h2'
    cases h2'
    rfl
  | recordPrediction pin =>
    left
    have : findAlert (stepState s (.recordPrediction pin)) aid = findAlert s aid := by
      unfold findAlert
      rw [show (stepState s (.recordPrediction pin)).alerts = s.alerts from record_alerts s pin]
    rw [this, h1] at h2
    cases h2
    rfl
  | submitFeedback p u ft c =>
    left
    have : findAlert (stepState s (.submitFeedback p u ft c)) aid = findAlert s aid := by
      unfold findAlert
      rw [show (stepState s (.submitFeedback p u ft c)).alerts = s.alerts from
        submit_alerts s p u ft c]
    rw [this, h1] at h2
    cases h2
    rfl
  | evaluatePrediction pr =>
    left
    have heq : findAlert (stepState s (.evaluatePrediction pr)) aid = some a := by
      simp only [stepState]
      unfold evaluate
      split
      · exact find?_append_some s.alerts _ _ a h1
      · exact h1
    rw [heq] at h2
    cases h2
    rfl
  | updateStatus uid st actor =>
    simp only [stepState] at h2
    unfold update_status at h2
    cases hrec : updateAlerts s.alerts uid st actor s.clock with
    | ok p =>
      obtain ⟨b, alerts2⟩ := p
      rw [hrec] at h2
      have h2' : alerts2.find? (fun x => x.id == aid) = some a2 := h2
      have := updateAlerts_find? s.alerts uid st actor s.clock b alerts2 hrec aid a h1
      rcases this with hsame | ⟨happ, hv⟩
      · left
        rw [hsame] at h2'
        cases h2'
        rfl
      · right
        rw [happ] at h2'
        cases h2'
        rw [applyTransition_status]
        exact hv
    | error e =>
      rw [hrec] at h2
      have h2' : findAlert s aid = some a2 := h2
      rw [h1] at h2'
      cases h2'
      exact Or.inl rfl

theorem pending_paths (tr : List AlertStatus)
    (h : List.Chain' (fun u v => validTransition u v = true) (.pending :: tr)) :
    (AlertStatus.pending :: tr) ∈
      ([[.pending], [.pending, .acknowledged],
        [.pending, .acknowledged, .action_taken],
        [.pending, .dismissed]] : List (List AlertStatus)) := by
  cases tr with
  | nil => simp
  | cons t rest =>
    rw [List.chain'_cons] at h
    obtain ⟨h1, h2⟩ := h
    cases t with
    | pending => simp [validTransition] at h1
    | action_taken => simp [validTransition] at h1
    | dismissed =>
      cases rest with
      | nil => simp
      | cons u rest2 =>
        rw [List.chain'_cons] at h2
        obtain ⟨h3, -⟩ := h2
        cases u <;> simp [validTransition] at h3
    | acknowledged =>
      cases rest with
      | nil => simp
      | cons u rest2 =>
        rw [List.chain'_cons] at h2
        obtain ⟨h3, h4⟩ := h2
        cases u with
        | pending => simp [validTransition] at h3
        | acknowledged => simp [validTransition] at h3
        | dismissed => simp [validTransition] at h3
        | action_taken =>
          cases rest2 with
          | nil => simp
          | cons w rest3 =>
            rw [List.chain'_cons] at h4
            obtain ⟨h5, -⟩ := h4
            cases w <;> simp [validTransition] at h5

/-- C2: alert statuses only evolve along the state machine — over any served
request an alert's status either stays put or moves along a table
transition, `acknowledged → dismissed` is not in the table, terminal states
admit no move, every chain of table transitions out of `pending` is one of
the two spec paths, and the `AlertCard` interface offers exactly the
table-allowed actions (`pending`: acknowledge and dismiss; `acknowledged`:
action taken; terminal: none). -/
theorem alert_status_state_machine :
    (∀ s op aid a a2, findAlert s aid = some a →
        findAlert (stepState s op) aid = some a2 →
        a2.status = a.status ∨ validTransition a.status a2.status = true) ∧
    validTransition .acknowledged .dismissed = false ∧
    (∀ v, validTransition .action_taken v = false ∧
        validTransition .dismissed v = false) ∧
    (∀ tr : List AlertStatus,
        List.Chain' (fun u v => validTransition u v = true) (.pending :: tr) →
        (AlertStatus.pending :: tr) ∈
          ([[.pending], [.pending, .acknowledged],
            [.pending, .acknowledged, .action_taken],
            [.pending, .dismissed]] : List (List AlertStatus))) ∧
    (∀ u v, v ∈ offeredActions u ↔ validTransition u v = true) ∧
    offeredActions .pending = [.acknowledged, .dismissed] ∧
    offeredActions .acknowledged = [.action_taken] ∧
    offeredActions .action_taken = [] ∧
    offeredActions .dismissed = [] := by
  refine ⟨stepState_status_step, rfl, ?_, pending_paths, ?_, rfl, rfl, rfl, rfl⟩
  · intro v
    exact ⟨by cases v <;> rfl, by cases v <;> rfl⟩
  · intro u v
    cases u <;> cases v <;> simp [offeredActions, validTransition]

/-- Witness for C2: acknowledging the pending alert of `wStateOpen` moves it
along a table transition, and the length-2 chain pending-acknowledged is one
of the allowed paths. -/
theorem alert_status_state_machine_witness :
    (wAlertAck.status = wAlert.status ∨
      validTransition wAlert.status wAlertAck.status = true) ∧
    ([AlertStatus.pending, .acknowledged] ∈
      ([[.pending], [.pending, .acknowledged],
        [.pending, .acknowledged, .action_taken],
        [.pending, .dismissed]] : List (List AlertStatus))) :=
  ⟨alert_status_state_machine.1 wStateOpen (.updateStatus 0 .acknowledged "dr")
      0 wAlert wAlertAck (by decide) (by decide),
   alert_status_state_machine.2.2.2.1 [.acknowledged]
     (by simp [List.chain'_cons, validTransition])⟩

theorem record_feedbacks (s : SystemState) (pin : PredictionInput) :
    (record s pin).2.feedbacks = s.feedbacks := by
  unfold record; split <;> rfl

theorem evaluate_feedbacks (s : SystemState) (pr : Prediction) :
    (evaluate s pr).2.feedbacks = s.feedbacks := by
  unfold evaluate; split <;> rfl

theorem update_status_feedbacks (s : SystemState) (aid : Nat) (st : AlertStatus)
    (actor : String) : (update_status s aid st actor).2.feedbacks = s.feedbacks := by
  unfold update_status
  cases updateAlerts s.alerts aid st actor s.clock with
  | ok p => rfl
  | error e => rfl

theorem evaluate_predictions (s : SystemState) (pr : Prediction) :
    (evaluate s pr).2.predictions = s.predictions := by
  unfold evaluate; split <;> rfl

theorem update_status_predictions (s : SystemState) (aid : Nat) (st : AlertStatus)
    (actor : String) : (update_status s aid st actor).2.predictions = s.predictions := by
  unfold update_status
  cases updateAlerts s.alerts aid st actor s.clock with
  | ok p => rfl
  | error e => rfl

theorem submit_predictions (s : SystemState) (pid uid : Nat) (ft : FeedbackType)
    (c : Option String) : (submit s pid uid ft c).2.predictions = s.predictions := by
  unfold submit; split <;> rfl

theorem submit_ok_feedbacks (s : SystemState) (pid uid : Nat) (ft : FeedbackType)
    (c : Option String) (fb : Feedback) (s2 : SystemState)
    (h : submit s pid uid ft c = (.ok fb, s2)) :
    s2.feedbacks = s.feedbacks ++ [fb] ∧ fb.prediction_id = pid ∧
      fb.user_id = uid ∧ fb.feedback_type = ft := by
  unfold submit at h
  by_cases hex : s.predictions.any (fun q => q.id == pid) = true
  · rw [if_pos hex] at h
    simp only [Prod.mk.injEq, Except.ok.injEq] at h
    obtain ⟨hfb, hs2⟩ := h
    subst hfb
    subst hs2
    exact ⟨rfl, rfl, rfl, rfl⟩
  · rw [if_neg hex] at h
    simp only [Prod.mk.injEq] at h
    cases h.1

theorem submit_error_state (s : SystemState) (pid uid : Nat) (ft : FeedbackType)
    (c : Option String) (h : (submit s pid uid ft c).1.isOk = false) :
    (submit s pid uid ft c).2 = s := by
  unfold submit at h ⊢
  by_cases hex : s.predictions.any (fun q => q.id == pid) = true
  · rw [if_pos hex] at h
    cases h
  · rw [if_neg hex]

theorem filter_append_singleton (l : List Feedback) (fb : Feedback) (pid : Nat) :
    (l ++ [fb]).filter (fun f => f.prediction_id == pid) =
      l.filter (fun f => f.prediction_id == pid) ++
        (if fb.prediction_id == pid then [fb] else []) := by
  rw [List.filter_append]
  congr 1
  rw [List.filter_cons]
  split <;> rfl

theorem stepState_list_for_prediction (s : SystemState) (op : Op) (pid : Nat) :
    (list_for_prediction (stepState s op) pid).length =
      (list_for_prediction s pid).length +
        (match op with
         | .submitFeedback p u ft c =>
           if p = pid ∧ (submit s p u ft c).1.isOk = true then 1 else 0
         | _ => 0) := by
  cases op with
  | addPatient p => rfl
  | addClinical c => rfl
  | recordPrediction pin =>
    simp only [stepState, list_for_prediction, record_feedbacks]
    omega
  | evaluatePrediction pr =>
    simp only [stepState, list_for_prediction, evaluate_feedbacks]
    omega
  | updateStatus aid st actor =>
    simp only [stepState, list_for_prediction, update_status_feedbacks]
    omega
  | submitFeedback p u ft c =>
    simp only [stepState]
    cases hres : (submit s p u ft c).1 with
    | ok fb =>
      have hok : submit s p u ft c = (.ok fb, (submit s p u ft c).2) := by
        rw [← hres]
      obtain ⟨hfbs, hpid, -, -⟩ :=
        submit_ok_feedbacks s p u ft c fb (submit s p u ft c).2 hok
      simp only [list_for_prediction, hfbs, filter_append_singleton]
      by_cases hp : p = pid
      · rw [if_pos (by simp [hpid, hp])]
        rw [if_pos ⟨hp, rfl⟩]
        simp
      · rw [if_neg (by simp [hpid, hp])]
        rw [if_neg (fun hand => hp hand.1)]
        simp
    | error e =>
      have hfail : (submit s p u ft c).1.isOk = false := by rw [hres]; rfl
      rw [submit_error_state s p u ft c hfail]
      rw [if_neg (fun hand => by simp [Except.isOk, Except.toBool] at hand)]
      omega

theorem runOps_list_for_prediction (ops : List Op) (s : SystemState) (pid : Nat) :
    (list_for_prediction (runOps s ops) pid).length =
      (list_for_prediction s pid).length + submitCount s ops pid := by
  induction ops generalizing s with
  | nil => rfl
  | cons op rest ih =>
    show (list_for_prediction (runOps (stepState s op) rest) pid).length = _
    rw [ih (stepState s op)]
    rw [stepState_list_for_prediction s op pid]
    show _ = (list_for_prediction s pid).length +
      ((match op with
        | .submitFeedback p u ft c =>
          if p = pid ∧ (submit s p u ft c).1.isOk = true then 1 else 0
        | _ => 0) + submitCount (stepState s op) rest pid)
    omega

/-- C6: feedback is an append-only ledger — a submit never alters the stored
predictions, a successful submit appends exactly one entry (with the
submitting user) at the end of the prediction's list and touches no other
prediction's list, over any request sequence the list's length grows by
exactly the number of successful submits for that prediction, every request
leaves the previous list as a prefix (no update, no deletion, no
deduplication), and two successive submits by users A and B append their two
entries in submission order. -/
theorem feedback_ledger_append_only :
    (∀ s pid uid ft c, (submit s pid uid ft c).2.predictions = s.predictions) ∧
    (∀ s pid uid ft c fb s2, submit s pid uid ft c = (.ok fb, s2) →
        list_for_prediction s2 pid = list_for_prediction s pid ++ [fb] ∧
        fb.user_id = uid ∧ fb.feedback_type = ft ∧
        (∀ q, ¬ q = pid → list_for_prediction s2 q = list_for_prediction s q)) ∧
    (∀ s (ops : List Op) pid, (list_for_prediction (runOps s ops) pid).length =
        (list_for_prediction s pid).length + submitCount s ops pid) ∧
    (∀ s op pid, ∃ tail, list_for_prediction (stepState s op) pid =
        list_for_prediction s pid ++ tail) ∧
    (∀ s pidX uA uB ftA ftB cA cB fbA s1 fbB s2,
        submit s pidX uA ftA cA = (.ok fbA, s1) →
        submit s1 pidX uB ftB cB = (.ok fbB, s2) →
        list_for_prediction s2 pidX = list_for_prediction s pidX ++ [fbA, fbB]) := by
  have hsucc : ∀ s pid uid ft c fb s2, submit s pid uid ft c = (.ok fb, s2) →
      list_for_prediction s2 pid = list_for_prediction s pid ++ [fb] ∧
      fb.user_id = uid ∧ fb.feedback_type = ft ∧
      (∀ q, ¬ q = pid → list_for_prediction s2 q = list_for_prediction s q) := by
    intro s pid uid ft c fb s2 h
    obtain ⟨hfbs, hpid, huid, hft⟩ := submit_ok_feedbacks s pid uid ft c fb s2 h
    refine ⟨?_, huid, hft, ?_⟩
    · simp only [list_for_prediction, hfbs, filter_append_singleton]
      rw [if_pos (by simp [hpid])]
    · intro q hq
      simp only [list_for_prediction, hfbs, filter_append_singleton]
      rw [if_neg (by simp [hpid]; exact fun hfalse => hq hfalse.symm)]
      simp
  refine ⟨submit_predictions, hsucc, ?_, ?_, ?_⟩
  · intro s ops pid
    exact runOps_list_for_prediction ops s pid
  · intro s op pid
    cases op with
    | addPatient p => exact ⟨[], by simp [stepState, list_for_prediction]⟩
    | addClinical c => exact ⟨[], by simp [stepState, list_for_prediction]⟩
    | recordPrediction pin =>
      exact ⟨[], by simp [stepState, list_for_prediction, record_feedbacks]⟩
    | evaluatePrediction pr =>
      exact ⟨[], by simp [stepState, list_for_prediction, evaluate_feedbacks]⟩
    | updateStatus aid st actor =>
      exact ⟨[], by simp [stepState, list_for_prediction, update_status_feedbacks]⟩
    | submitFeedback p u ft c =>
      cases hres : (submit s p u ft c).1 with
      | ok fb =>
        have hok : submit s p u ft c = (.ok fb, (submit s p u ft c).2) := by
          rw [← hres]
        obtain ⟨hfbs, hpid, -, -⟩ :=
          submit_ok_feedbacks s p u ft c fb (submit s p u ft c).2 hok
        refine ⟨if fb.prediction_id == pid then [fb] else [], ?_⟩
        simp only [stepState, list_for_prediction, hfbs, filter_append_singleton]
      | error e =>
        have hfail : (submit s p u ft c).1.isOk = false := by rw [hres]; rfl
        exact ⟨[], by simp [stepState, submit_error_state s p u ft c hfail]⟩
  · intro s pidX uA uB ftA ftB cA cB fbA s1 fbB s2 h1 h2
    obtain ⟨hl1, -, -, -⟩ := hsucc s pidX uA ftA cA fbA s1 h1
    obtain ⟨hl2, -, -, -⟩ := hsucc s1 pidX uB ftB cB fbB s2 h2
    rw [hl2, hl1, List.append_assoc]
    rfl

/-- Witness for C6: submitting by user 100 and then user 101 against
prediction 0 appends the two entries in order; the predictions stay as they
were. -/
theorem feedback_ledger_append_only_witness :
    (submit wStatePred 0 100 FeedbackType.correct none).2.predictions =
        wStatePred.predictions ∧
      list_for_prediction wStateFb2 0 =
        list_for_prediction wStatePred 0 ++ [wFbA, wFbB] :=
  ⟨feedback_ledger_append_only.1 wStatePred 0 100 .correct none,
   feedback_ledger_append_only.2.2.2.2 wStatePred 0 100 101 .correct
     .false_positive none none wFbA wStateFb1 wFbB wStateFb2 rfl rfl⟩

theorem filter_and_eq_nil (l : List Alert) (pid : Nat)
    (h : l.filter (fun a => a.patient_id == pid) = []) :
    l.filter (fun a => a.patient_id == pid && isOpenStatus a.status) = [] := by
  induction l with
  | nil => rfl
  | cons a rest ih =>
    rw [List.filter_cons] at h ⊢
    cases hb : (a.patient_id == pid) with
    | true =>
      rw [hb] at h
      simp at h
    | false =>
      rw [hb] at h
      simp only [Bool.false_eq_true, if_false] at h
      simp only [Bool.false_and, Bool.false_eq_true, if_false]
      exact ih h

/-- C7: `summarize` fails with `notFound` exactly when the patient record is
absent, and for an existing patient with no clinical data, no predictions
and no alerts it succeeds with a null latest prediction, no active alerts
and an alert count of zero. -/
theorem summarize_notFound_and_empty :
    (∀ s pid, summarize s pid = .error .notFound ↔
        s.patients.find? (fun p => p.id == pid) = none) ∧
    (∀ s pid p, s.patients.find? (fun q => q.id == pid) = some p →
        s.clinicalData.filter (fun c => c.patient_id == pid) = [] →
        s.predictions.filter (fun q => q.patient_id == pid) = [] →
        s.alerts.filter (fun a => a.patient_id == pid) = [] →
        summarize s pid = .ok (emptyPatientSummary p)) := by
  constructor
  · intro s pid
    cases hfind : s.patients.find? (fun p => p.id == pid) with
    | none => simp [summarize, hfind]
    | some p => simp [summarize, hfind]
  · intro s pid p hfind hcd hpred halerts
    have hact := filter_and_eq_nil s.alerts pid halerts
    simp [summarize, hfind, hcd, hpred, hact, latestClinical, latestPrediction,
      emptyPatientSummary]

/-- Witness for C7: `summarize` on the fresh patient of `wStateP` returns
the empty summary without failing, and on the empty state it reports
`notFound` for patient 1. -/
theorem summarize_notFound_and_empty_witness :
    summarize wStateP 1 = .ok (emptyPatientSummary wPatient) ∧
      (summarize initState 1 = .error .notFound ↔
        initState.patients.find? (fun p => p.id == 1) = none) :=
  ⟨summarize_notFound_and_empty.2 wStateP 1 wPatient rfl rfl rfl rfl,
   summarize_notFound_and_empty.1 initState 1⟩

theorem record_ok_characterize (s : SystemState) (pin : PredictionInput)
    (pr : Prediction) (s2 : SystemState) (h : record s pin = (.ok pr, s2)) :
    s2.predictions = s.predictions ++ [pr] ∧ pr.id = s.nextPredictionId ∧
      pr.explanation = pin.explanation ∧ pr.probability = pin.probability := by
  unfold record at h
  by_cases hv : validPredictionInput pin = true
  · rw [if_pos hv] at h
    simp only [Prod.mk.injEq, Except.ok.injEq] at h
    obtain ⟨hpr, hs2⟩ := h
    subst hpr
    subst hs2
    exact ⟨rfl, rfl, rfl, rfl⟩
  · rw [if_neg hv] at h
    simp only [Prod.mk.injEq] at h
    cases h.1

theorem stepState_preserves_aligned (s : SystemState) (op : Op)
    (h : AlignedPredictions s) : AlignedPredictions (stepState s op) := by
  cases op with
  | addPatient p => exact h
  | addClinical c => exact h
  | evaluatePrediction pr =>
    intro q hq
    apply h
    simp only [stepState] at hq
    rwa [evaluate_predictions] at hq
  | updateStatus aid st actor =>
    intro q hq
    apply h
    simp only [stepState] at hq
    rwa [update_status_predictions] at hq
  | submitFeedback p u ft c =>
    intro q hq
    apply h
    simp only [stepState] at hq
    rwa [submit_predictions] at hq
  | recordPrediction pin =>
    intro q hq
    simp only [stepState] at hq
    unfold record at hq
    by_cases hv : validPredictionInput pin = true
    · rw [if_pos hv] at hq
      simp only [List.mem_append, List.mem_singleton] at hq
      rcases hq with hq | hq
      · exact h q hq
      · subst hq
        have := hv
        simp only [validPredictionInput, Bool.and_eq_true] at this
        exact this.2
    · rw [if_neg hv] at hq
      exact h q hq

/-- C8: `record` fails with `validationError` exactly when the probability
is outside [0,1] or the explanation arrays are misaligned, a failure leaves
the state untouched, a success appends the record under the next fresh
identifier, and every stored prediction in any reachable state has aligned
explanation arrays. -/
theorem record_validation_and_alignment :
    (∀ s pin, (record s pin).1 = .error .validationError ↔
        ¬(0 ≤ pin.probability ∧ pin.probability ≤ 1 ∧
          explanationAligned pin.explanation = true)) ∧
    (∀ s pin e, (record s pin).1 = .error e → (record s pin).2 = s) ∧
    (∀ s pin pr s2, record s pin = (.ok pr, s2) →
        s2.predictions = s.predictions ++ [pr] ∧ pr.id = s.nextPredictionId ∧
        pr.explanation = pin.explanation ∧ pr.probability = pin.probability) ∧
    (∀ s, Reachable s → ∀ pr ∈ s.predictions,
        explanationAligned pr.explanation = true) := by
  refine ⟨?_, ?_, record_ok_characterize, ?_⟩
  · intro s pin
    unfold record
    by_cases hv : validPredictionInput pin = true
    · rw [if_pos hv]
      simp only [validPredictionInput, Bool.and_eq_true, decide_eq_true_eq] at hv
      constructor
      · intro hco
        exact absurd hco (by simp)
      · intro hco
        exact absurd ⟨hv.1.1, hv.1.2, hv.2⟩ hco
    · rw [if_neg hv]
      simp only [validPredictionInput, Bool.and_eq_true, decide_eq_true_eq] at hv
      constructor
      · intro _h1 hco
        exact hv ⟨⟨hco.1, hco.2.1⟩, hco.2.2⟩
      · intro _h1
        rfl
  · intro s pin e h
    unfold record at h ⊢
    by_cases hv : validPredictionInput pin = true
    · rw [if_pos hv] at h
      cases h
    · rw [if_neg hv]
  · intro s hs pr hpr
    obtain ⟨ops, hops⟩ := hs
    have hinit : AlignedPredictions initState := by
      intro q hq
      cases hq
    have hrun := runOps_preserves AlignedPredictions stepState_preserves_aligned
      ops initState hinit
    rw [hops] at hrun
    exact hrun pr hpr

/-- Witness for C8: recording the out-of-range input fails and leaves the
initial state unchanged, recording the valid 0.85 input appends prediction
0, and the state holding that record is reachable with aligned
explanations. -/
theorem record_validation_and_alignment_witness :
    (record initState wPinBad).2 = initState ∧
      (wStatePred.predictions = initState.predictions ++ [wPredRec] ∧
        wPredRec.id = initState.nextPredictionId ∧
        wPredRec.explanation = wPinHigh.explanation ∧
        wPredRec.probability = wPinHigh.probability) ∧
      (∀ pr ∈ wStatePred.predictions, explanationAligned pr.explanation = true) :=
  ⟨record_validation_and_alignment.2.1 initState wPinBad .validationError rfl,
   record_validation_and_alignment.2.2.1 initState wPinHigh wPredRec wStatePred rfl,
   record_validation_and_alignment.2.2.2 wStatePred
     ⟨[Op.recordPrediction wPinHigh], rfl⟩⟩

theorem combineImpacts_eq_zip (sv : List ℚ) (used : List (String × ℚ)) :
    ∀ (xs : List String) (i : Nat), i + xs.length ≤ sv.length →
      combineImpacts sv used i xs = ((xs.zip (sv.drop i)).map (pairImpact used)) := by
  intro xs
  induction xs with
  | nil => intro i h; rfl
  | cons f rest ih =>
    intro i h
    have hi : i < sv.length := by
      simp only [List.length_cons] at h
      omega
    have hdrop : sv.drop i = sv.get ⟨i, hi⟩ :: sv.drop (i + 1) := by
      rw [List.get_eq_getElem]
      exact List.drop_eq_getElem_cons hi
    have hget : sv.get? i = some (sv.get ⟨i, hi⟩) := List.get?_eq_get hi
    rw [combineImpacts, hdrop]
    simp only [List.zip_cons_cons, List.map_cons]
    rw [hget, ih (i + 1) (by simp only [List.length_cons] at h; omega)]
    rfl

theorem riskFactor_le_trans (a b c : FeatureImpact)
    (hab : decide (|b.impact| ≤ |a.impact|) = true)
    (hbc : decide (|c.impact| ≤ |b.impact|) = true) :
    decide (|c.impact| ≤ |a.impact|) = true := by
  simp only [decide_eq_true_eq] at hab hbc ⊢
  exact le_trans hbc hab

theorem riskFactor_le_total (a b : FeatureImpact) :
    (decide (|b.impact| ≤ |a.impact|) || decide (|a.impact| ≤ |b.impact|)) = true := by
  rcases le_total (|b.impact|) (|a.impact|) with h | h <;> simp [h]

/-- C9: for a prediction whose explanation arrays are index-aligned and whose
feature map covers every listed feature, `getRiskFactors` returns one entry
per feature, pairing each feature name with the SHAP value at the same index
(a permutation of the index-aligned zip; every index access in bounds),
sorted by non-increasing absolute impact. -/
theorem getRiskFactors_aligned_sorted :
    ∀ (pr : Prediction) (e : ShapExplanation), pr.explanation = some e →
      e.features.length = e.shap_values.length →
      (∀ f ∈ e.features, (lookupFeature pr.features_used f).isSome = true) →
      (getRiskFactors pr).length = e.features.length ∧
        (getRiskFactors pr).Perm
          ((e.features.zip e.shap_values).map (pairImpact pr.features_used)) ∧
        List.Pairwise (fun a b => |b.impact| ≤ |a.impact|) (getRiskFactors pr) ∧
        (∀ i, i < e.features.length → (e.shap_values.get? i).isSome = true) := by
  intro pr e hexp hlen hcov
  have hcomb : combineImpacts e.shap_values pr.features_used 0 e.features =
      (e.features.zip e.shap_values).map (pairImpact pr.features_used) := by
    have := combineImpacts_eq_zip e.shap_values pr.features_used e.features 0
      (by omega)
    simpa using this
  have hunfold : getRiskFactors pr =
      (combineImpacts e.shap_values pr.features_used 0 e.features).mergeSort
        (fun a b => decide (|b.impact| ≤ |a.impact|)) := by
    unfold getRiskFactors
    rw [hexp]
  refine ⟨?_, ?_, ?_, ?_⟩
  · rw [hunfold, List.length_mergeSort, hcomb, List.length_map,
      List.length_zip]
    omega
  · rw [hunfold, hcomb]
    exact List.mergeSort_perm _ _
  · rw [hunfold]
    have hsorted := @List.sorted_mergeSort FeatureImpact
      (fun a b => decide (|b.impact| ≤ |a.impact|))
      riskFactor_le_trans riskFactor_le_total
      (combineImpacts e.shap_values pr.features_used 0 e.features)
    exact hsorted.imp (fun h => by simpa using h)
  · intro i hi
    rw [List.get?_eq_getElem?, List.getElem?_eq_getElem (by omega : i < e.shap_values.length)]
    rfl

/-- Witness for C9: the two-feature fixture satisfies the alignment and
coverage hypotheses, and its risk factors are one entry per feature, a
permutation of the zip, sorted by non-increasing absolute impact. -/
theorem getRiskFactors_aligned_sorted_witness :
    (getRiskFactors wPredExpl).length = wExpl.features.length ∧
      (getRiskFactors wPredExpl).Perm
        ((wExpl.features.zip wExpl.shap_values).map (pairImpact wPredExpl.features_used)) ∧
      List.Pairwise (fun a b => |b.impact| ≤ |a.impact|) (getRiskFactors wPredExpl) ∧
      (∀ i, i < wExpl.features.length → (wExpl.shap_values.get? i).isSome = true) :=
  getRiskFactors_aligned_sorted wPredExpl wExpl rfl rfl (by decide)

theorem sortClinical_perm (cds : List ClinicalData) :
    (sortClinicalByTime cds).Perm cds :=
  List.mergeSort_perm cds _

theorem clinical_le_trans (a b c : ClinicalData)
    (hab : decide (a.timestamp ≤ b.timestamp) = true)
    (hbc : decide (b.timestamp ≤ c.timestamp) = true) :
    decide (a.timestamp ≤ c.timestamp) = true := by
  simp only [decide_eq_true_eq] at hab hbc ⊢
  omega

theorem clinical_le_total (a b : ClinicalData) :
    (decide (a.timestamp ≤ b.timestamp) || decide (b.timestamp ≤ a.timestamp)) = true := by
  rcases Nat.le_total a.timestamp b.timestamp with h | h <;> simp [h]

/-- C10: `VitalsChart` builds its series from a sorted copy of the input —
the sorted list is a permutation of the input in non-decreasing timestamp
order and the series datasets are mapped off it (the input list itself is
left untouched, matching the spread-copy in the source) — and an empty input
renders the no-data message instead of a chart. -/
theorem vitalsChart_sorted_copy :
    (∀ cds, (sortClinicalByTime cds).Perm cds) ∧
    (∀ cds, List.Pairwise
        (fun a b : ClinicalData => a.timestamp ≤ b.timestamp)
        (sortClinicalByTime cds)) ∧
    VitalsChart [] = .noDataMessage ∧
    (∀ cds, ¬ cds = [] → VitalsChart cds = .lineChart (buildChartData cds)) ∧
    (∀ cds, (buildChartData cds).labels =
        (sortClinicalByTime cds).map (fun c => c.timestamp) ∧
      (buildChartData cds).heartRate =
        (sortClinicalByTime cds).map (fun c => c.heart_rate)) := by
  refine ⟨sortClinical_perm, ?_, rfl, ?_, ?_⟩
  · intro cds
    have hsorted := @List.sorted_mergeSort ClinicalData
      (fun a b => decide (a.timestamp ≤ b.timestamp))
      clinical_le_trans clinical_le_total cds
    exact hsorted.imp (fun h => by simpa using h)
  · intro cds h
    unfold VitalsChart
    rw [if_neg (fun hlen => h (List.length_eq_zero.mp hlen))]
  · intro cds
    exact ⟨rfl, rfl⟩

/-- Witness for C10: on the two-point fixture (given out of timestamp order)
the chart renders a line chart over the built series, and the sorted copy is
a permutation of the input. -/
theorem vitalsChart_sorted_copy_witness :
    VitalsChart [wCd1, wCd2] = .lineChart (buildChartData [wCd1, wCd2]) ∧
      (sortClinicalByTime [wCd1, wCd2]).Perm [wCd1, wCd2] :=
  ⟨vitalsChart_sorted_copy.2.2.2.1 [wCd1, wCd2] (List.cons_ne_nil wCd1 [wCd2]),
   vitalsChart_sorted_copy.1 [wCd1, wCd2]⟩

end SepsisX
